import Mathlib

/-!
Verification development for the medical-report processing backend.

The Go sources embedded here (shallowly, over lists of characters) are:
- internal/services/ai_service.go : the response normalizer
  (parseAnalysisResponse, validateAndEnhanceAnalysis, extractSimpleSummary,
  extractHealthMetrics), the document text extractor (extractTextFromFile,
  extractFromTXT, extractFromPDF, extractFromDOCX), the prompt builder
  (loadPromptTemplate, getDefaultPromptTemplate, buildAnalysisPrompt),
  and the orchestrating AnalyzeReport.
- internal/handlers/report.go : processReportAsync (the background pipeline)
  and generateUniqueFilename.
- internal/models/report.go : the Report row and UpdateProcessingStatus.

Go strings are modelled as lists of characters.  Go operates on bytes, but
every operation the code performs (prefix and suffix trimming with ASCII
markers, locating ASCII braces, splitting on a newline byte) acts
identically on the character-level view, so the model is exact for the
properties considered.  External effects (os.ReadFile, the pdf library,
json.Unmarshal, json.Marshal, the Gemini transport) are explicit
parameters gathered in an Env record: the code under verification never
inspects their internals, only their results.
-/

set_option maxRecDepth 40000

/-- A Go string, modelled as its sequence of characters. -/
abbrev Str := List Char

/-- Character list of a Lean string literal. -/
def str (s : String) : Str := s.data

/-- Model of Go strings.TrimPrefix(s, pre): removes pre once if present. -/
def trimPre (pre s : Str) : Str :=
  if pre.isPrefixOf s then s.drop pre.length else s

/-- Model of Go strings.TrimSuffix(s, suf): removes suf once if present. -/
def trimSuf (suf s : Str) : Str :=
  if suf.isSuffixOf s then s.take (s.length - suf.length) else s

/-- ASCII whitespace recognized by Go unicode.IsSpace on the inputs in
scope (space, tab, newline, carriage return, vertical tab, form feed). -/
def isSpaceChar (c : Char) : Bool :=
  c = ' ' || c = '\t' || c = '\n' || c = '\r' || c = '\x0b' || c = '\x0c'

/-- Model of Go strings.TrimSpace. -/
def trimSpace (s : Str) : Str :=
  ((s.dropWhile isSpaceChar).reverse.dropWhile isSpaceChar).reverse

/-- Index of the first occurrence of a character (Go strings.Index with a
one-character pattern). -/
def indexOfChar (c : Char) : Str → Option Nat
  | [] => none
  | x :: xs => if x = c then some 0 else (indexOfChar c xs).map (· + 1)

/-- Index of the last occurrence of a character (Go strings.LastIndex with
a one-character pattern). -/
def lastIndexOfChar (c : Char) (s : Str) : Option Nat :=
  (indexOfChar c s.reverse).map (fun k => s.length - 1 - k)

/-- Model of Go strings.Split(s, newline). -/
def splitLines (s : Str) : List Str :=
  s.foldr
    (fun c acc =>
      match acc with
      | [] => [[c]]
      | l :: ls => if c = '\n' then [] :: l :: ls else (c :: l) :: ls)
    [[]]

/-- The JSON-ish scalar stored in a metric value field (Go interface value
decoded by encoding/json: string, number, boolean or null). -/
inductive GoAny where
  | jsonStr : Str → GoAny
  | jsonNum : ℚ → GoAny
  | jsonBool : Bool → GoAny
  | jsonNull : GoAny
deriving DecidableEq, Repr

/-- HealthMetric from ai_service.go.  Scores are float64 in Go; the code
only compares them against the literals 0, 100, 80 and 50 and copies them,
so rational numbers model them exactly (JSON cannot encode NaN). -/
structure HealthMetric where
  name : Str
  value : GoAny
  unit : Str
  score : ℚ
  status : Str
  rangeMin : ℚ
  rangeMax : ℚ
  description : Str
deriving DecidableEq, Repr

/-- AnalysisResult from ai_service.go. -/
structure AnalysisResult where
  summary : Str
  simpleSummary : Str
  healthMetrics : List HealthMetric
  keyFindings : List Str
  recommendations : List Str
  riskLevel : Str
deriving DecidableEq, Repr

/-- extractSimpleSummary helper: the loop body over lines.  Go trims each
line and returns the first whose length exceeds 20 and that does not start
with an opening or closing brace. -/
def firstMeaningLine : List Str → Option Str
  | [] => none
  | l :: ls =>
    let t := trimSpace l
    if 20 < t.length ∧ (str "\x7b").isPrefixOf t = false ∧
        (str "\x7d").isPrefixOf t = false then
      some t
    else
      firstMeaningLine ls

/-- extractSimpleSummary from ai_service.go: scan the raw response line by
line for the first meaningful line, with a generic fallback sentence. -/
def extractSimpleSummary (response : Str) : Str :=
  match firstMeaningLine (splitLines response) with
  | some t => t
  | none =>
      str "Your medical report has been analyzed. Please consult your healthcare provider."

/-- extractHealthMetrics from ai_service.go: returns no metrics when JSON
parsing failed (the source keeps this as a stub returning the empty
slice). -/
def extractHealthMetrics (_response : Str) : List HealthMetric := []

/-- The fallback AnalysisResult built by parseAnalysisResponse when strict
JSON decoding of the cleaned response fails. -/
def fallbackAnalysis (response : Str) : AnalysisResult :=
  { summary := str "AI analysis completed. Raw response formatting required improvement."
    simpleSummary := str "Analysis: " ++ extractSimpleSummary response
    healthMetrics := extractHealthMetrics response
    keyFindings := [str "Report analysis completed", str "Response parsing needed enhancement"]
    recommendations := [str "Consult with your healthcare provider for personalized advice"]
    riskLevel := str "medium" }

/-- The per-metric part of validateAndEnhanceAnalysis: clamp the score
into the 0 to 100 range, then derive the status from the clamped score
when the model left it empty. -/
def validateMetric (m : HealthMetric) : HealthMetric :=
  let score : ℚ := if m.score < 0 then 0 else if 100 < m.score then 100 else m.score
  let status : Str :=
    if m.status = [] then
      if 80 ≤ score then str "normal"
      else if 50 ≤ score then str "warning"
      else str "critical"
    else m.status
  { m with score := score, status := status }

/-- validateAndEnhanceAnalysis from ai_service.go: fill empty summary,
simple summary and risk level with fixed fallbacks, clamp and repair every
metric, and inject three default recommendations when none came back. -/
def validateAndEnhanceAnalysis (a : AnalysisResult) : AnalysisResult :=
  { a with
    summary :=
      if a.summary = [] then str "Medical analysis completed." else a.summary
    simpleSummary :=
      if a.simpleSummary = [] then
        str "Your report has been analyzed. Please discuss with your healthcare provider."
      else a.simpleSummary
    riskLevel := if a.riskLevel = [] then str "medium" else a.riskLevel
    healthMetrics := a.healthMetrics.map validateMetric
    recommendations :=
      if a.recommendations = [] then
        [str "Regular health check-ups with your healthcare provider",
         str "Maintain a balanced diet and regular exercise",
         str "Follow any prescribed treatments consistently"]
      else a.recommendations }

/-- The fence-stripping step of parseAnalysisResponse: TrimPrefix with the
json code-fence marker, then TrimSuffix with the bare fence marker. -/
def stripFences (s : Str) : Str :=
  trimSuf (str "```") (trimPre (str "```json") s)

/-- The defensive brace-slicing step of parseAnalysisResponse: slice
between the first opening brace and the last closing brace when both
exist in that order, otherwise leave the text alone. -/
def sliceJson (s : Str) : Str :=
  match indexOfChar '\x7b' s, lastIndexOfChar '\x7d' s with
  | some i, some j => if i < j then (s.drop i).take (j + 1 - i) else s
  | _, _ => s

/-- The full cleaning pipeline parseAnalysisResponse applies to the raw
model text before decoding: strip fences, trim whitespace, slice braces. -/
def cleanResponse (response : Str) : Str :=
  sliceJson (trimSpace (stripFences response))

/-- parseAnalysisResponse from ai_service.go, parameterized by the
json.Unmarshal decoding of the cleaned text into the AnalysisResult
shape.  Decoding failure yields the fallback analysis; success runs the
validation and enhancement pass.  Both branches of the source return a
nil error, which the Except result type makes visible. -/
def parseAnalysisResponse (unmarshal : Str → Option AnalysisResult)
    (response : Str) : Except Str AnalysisResult :=
  let r := cleanResponse response
  match unmarshal r with
  | none => Except.ok (fallbackAnalysis r)
  | some a => Except.ok (validateAndEnhanceAnalysis a)

/-- True exactly on the ok constructor of an Except result. -/
def isOkE (e : Except Str AnalysisResult) : Bool :=
  match e with
  | Except.ok _ => true
  | Except.error _ => false

/-- Model of Go strings.ReplaceAll for a non-empty pattern, with explicit
fuel bounded by the length of the scanned string (each step consumes at
least one character, so the fuel never runs out on the initial call). -/
def replaceAllFuel (pat rep : Str) : Nat → Str → Str
  | 0, s => s
  | Nat.succ n, s =>
    if pat.isPrefixOf s ∧ pat ≠ [] then
      rep ++ replaceAllFuel pat rep n (s.drop pat.length)
    else
      match s with
      | [] => []
      | c :: cs => c :: replaceAllFuel pat rep n cs

/-- Model of Go strings.ReplaceAll(s, pat, rep). -/
def replaceAll (s pat rep : Str) : Str := replaceAllFuel pat rep s.length s

/-- getDefaultPromptTemplate from ai_service.go: the embedded fallback
prompt with the single report-content placeholder. -/
def defaultPromptTemplate : Str :=
  str "You are a medical AI assistant specialized in analyzing medical reports and lab results. Please analyze the following medical report and provide a comprehensive analysis in JSON format.\n\nMedical Report Content:\n\x7b\x7bREPORT_CONTENT\x7d\x7d\n\nPlease provide your analysis in the following JSON structure:\n\x7b\n  \"summary\": \"Detailed medical summary for healthcare professionals\",\n  \"simple_summary\": \"Easy-to-understand summary for patients (avoid medical jargon)\",\n  \"health_metrics\": [\n    \x7b\n      \"name\": \"Parameter name (e.g., Blood Glucose, Cholesterol)\",\n      \"value\": \"Measured value (can be number or string)\",\n      \"unit\": \"Unit of measurement\",\n      \"score\": \"Score from 0-100 (100 = optimal, 0 = critical)\",\n      \"status\": \"normal/warning/critical\",\n      \"range_min\": \"Normal range minimum value\",\n      \"range_max\": \"Normal range maximum value\",\n      \"description\": \"Simple explanation of what this means\"\n    \x7d\n  ],\n  \"key_findings\": [\"List of important findings\"],\n  \"recommendations\": [\"List of actionable recommendations\"],\n  \"risk_level\": \"low/medium/high\"\n\x7d\n\nGuidelines:\n1. Extract all measurable parameters (blood tests, vitals, etc.)\n2. Provide scores based on how close values are to optimal ranges\n3. Use simple language in simple_summary and descriptions\n4. Be accurate but not alarming in tone\n5. Include lifestyle recommendations when appropriate\n6. If no specific values are found, focus on general health insights\n7. For numeric values, you can return them as numbers in the JSON\n\nRespond only with valid JSON."

/-- One page of an opened PDF document, as seen by extractFromPDF: a page
whose value is null (skipped), a page whose plain-text extraction failed
(logged and skipped), or a page with extracted text. -/
inductive PdfPage where
  | nullPage : PdfPage
  | failedPage : Str → PdfPage
  | pageText : Str → PdfPage
deriving DecidableEq, Repr

/-- The external effects the AI service consumes, made explicit: file
reads, the pdf library, the operator-editable prompt template file, the
Gemini transport (prompt in, raw candidate text or transport error out),
and the encoding/json codec for the AnalysisResult shape. -/
structure Env where
  readFile : Str → Except Str Str
  pdfPages : Str → Except Str (List PdfPage)
  promptFile : Option Str
  generate : Str → Except Str Str
  unmarshal : Str → Option AnalysisResult
  marshal : AnalysisResult → Str

/-- extractFromTXT from ai_service.go: read the file bytes verbatim. -/
def extractFromTXT (env : Env) (filePath : Str) : Except Str Str :=
  env.readFile filePath

/-- extractFromPDF from ai_service.go: open the document, concatenate the
plain text of every page followed by a newline, skipping null pages and
pages whose extraction fails; fail when the result is whitespace-only. -/
def extractFromPDF (env : Env) (filePath : Str) : Except Str Str :=
  match env.pdfPages filePath with
  | Except.error e => Except.error (str "failed to open PDF: " ++ e)
  | Except.ok pages =>
    let text :=
      pages.foldl
        (fun acc p =>
          match p with
          | PdfPage.nullPage => acc
          | PdfPage.failedPage _ => acc
          | PdfPage.pageText t => acc ++ t ++ [Char.ofNat 10]) []
    if trimSpace text = [] then Except.error (str "no text content found in PDF")
    else Except.ok text

/-- extractFromDOCX from ai_service.go: a placeholder that succeeds with a
fixed not-yet-implemented message instead of failing. -/
def extractFromDOCX (_env : Env) (_filePath : Str) : Except Str Str :=
  Except.ok (str "DOCX text extraction not yet implemented. Please use TXT format for testing.")

/-- ASCII lower-casing, as strings.ToLower acts on the ASCII extensions
involved here. -/
def toLowerStr (s : Str) : Str := s.map Char.toLower

/-- Go filepath.Ext scan: walk the path from its end; a path separator
ends the search, a dot yields the suffix from that dot on. -/
def goExtAux : List Char → Str → Str
  | [], _ => []
  | c :: rest, acc =>
    if c = '/' then []
    else if c = '.' then c :: acc
    else goExtAux rest (c :: acc)

/-- Model of Go filepath.Ext. -/
def goExt (path : Str) : Str := goExtAux path.reverse []

/-- extractTextFromFile from ai_service.go: dispatch on the lower-cased
extension of the file path (the declared file type argument is accepted
but never consulted, exactly as in the source). -/
def extractTextFromFile (env : Env) (filePath _fileType : Str) : Except Str Str :=
  let ext := toLowerStr (goExt filePath)
  if ext = str ".txt" then extractFromTXT env filePath
  else if ext = str ".pdf" then extractFromPDF env filePath
  else if ext = str ".docx" ∨ ext = str ".doc" then extractFromDOCX env filePath
  else Except.error (str "unsupported file type: " ++ ext)

/-- loadPromptTemplate from ai_service.go: the external template file if
readable, otherwise the embedded default (read errors never surface). -/
def loadPromptTemplate (env : Env) : Str :=
  match env.promptFile with
  | some t => t
  | none => defaultPromptTemplate

/-- buildAnalysisPrompt from ai_service.go: substitute the report content
for the placeholder in the loaded template. -/
def buildAnalysisPrompt (env : Env) (content : Str) : Str :=
  replaceAll (loadPromptTemplate env) (str "\x7b\x7bREPORT_CONTENT\x7d\x7d") content

/-- Observable actions of one background processing task: a store status
update (UpdateProcessingStatus) or a call to the external model. -/
inductive Event where
  | update : Str → Str → Event
  | clientCall : Str → Event
deriving DecidableEq, Repr

/-- True exactly on client-call events. -/
def isClientCallEv (e : Event) : Bool :=
  match e with
  | Event.clientCall _ => true
  | Event.update _ _ => false

/-- The store updates of a trace, in order. -/
def updatesOf (tr : List Event) : List (Str × Str) :=
  tr.filterMap
    (fun e =>
      match e with
      | Event.update s n => some (s, n)
      | Event.clientCall _ => none)

/-- generateAnalysis from ai_service.go: build the prompt, call the model
(always recorded as a client-call event), then parse the raw text.  The
no-candidates case of the source is one more error value of the
transport parameter. -/
def generateAnalysis (env : Env) (content : Str) :
    List Event × Except Str AnalysisResult :=
  let prompt := buildAnalysisPrompt env content
  ([Event.clientCall prompt],
    match env.generate prompt with
    | Except.error e => Except.error (str "failed to generate content: " ++ e)
    | Except.ok responseText =>
      match parseAnalysisResponse env.unmarshal responseText with
      | Except.error e => Except.error (str "failed to parse analysis response: " ++ e)
      | Except.ok analysis => Except.ok analysis)

/-- AnalyzeReport from ai_service.go: extract the text, generate and parse
the analysis, and serialize it for storage. -/
def analyzeReport (env : Env) (filePath fileType : Str) :
    List Event × Except Str Str :=
  match extractTextFromFile env filePath fileType with
  | Except.error e => ([], Except.error (str "failed to extract text from file: " ++ e))
  | Except.ok content =>
    let ga := generateAnalysis env content
    (ga.1,
      match ga.2 with
      | Except.error e => Except.error (str "failed to generate AI analysis: " ++ e)
      | Except.ok analysis => Except.ok (env.marshal analysis))

/-- The Report row from internal/models/report.go.  Timestamps are opaque
ticks; the processed-at column is nullable. -/
structure Report where
  id : Nat
  userId : Nat
  originalFilename : Str
  filePath : Str
  fileType : Str
  fileSize : Nat
  simplifiedSummary : Str
  processingStatus : Str
  uploadDate : Nat
  processedAt : Option Nat
  createdAt : Nat
  updatedAt : Nat
deriving DecidableEq, Repr

/-- UpdateProcessingStatus from internal/models/report.go: one atomic row
update setting the status and summary; the processed-at column is set to
the current time exactly when the new status is completed and kept
otherwise, and updated-at always advances. -/
def UpdateProcessingStatus (r : Report) (status summary : Str) (now : Nat) : Report :=
  { r with
    processingStatus := status
    simplifiedSummary := summary
    processedAt := if status = str "completed" then some now else r.processedAt
    updatedAt := now }

/-- A sequence of UpdateProcessingStatus calls applied to a row. -/
def applyUpdates (r : Report) (l : List (Str × Str × Nat)) : Report :=
  l.foldl (fun acc u => UpdateProcessingStatus acc u.1 u.2.1 u.2.2) r

/-- processReportAsync from internal/handlers/report.go as its trace of
observable actions: mark the row processing, bail out to failed when the
AI service was never constructed (missing API key), otherwise run
AnalyzeReport and write the single terminal update. -/
def processReportAsync (env : Env) (aiAvailable : Bool) (r : Report) :
    List Event :=
  Event.update (str "processing") [] ::
    (if aiAvailable then
      let ar := analyzeReport env r.filePath r.fileType
      ar.1 ++
        [match ar.2 with
         | Except.error e => Event.update (str "failed") (str "Processing failed: " ++ e)
         | Except.ok summary => Event.update (str "completed") summary]
    else
      [Event.update (str "failed") (str "AI service not available - missing API key")])

/-- The rune filter of generateUniqueFilename: keep ASCII letters, digits,
underscore and hyphen, drop everything else. -/
def isAllowedRune (r : Char) : Bool :=
  if ('a' ≤ r ∧ r ≤ 'z') ∨ ('A' ≤ r ∧ r ≤ 'Z') ∨ ('0' ≤ r ∧ r ≤ '9') ∨
      r = '_' ∨ r = '-' then true
  else false

/-- The sanitizing pass of generateUniqueFilename: spaces become
underscores, then only allowed runes survive. -/
def sanitizeBaseName (name : Str) : Str :=
  (name.map (fun c => if c = ' ' then '_' else c)).filterMap
    (fun r => if isAllowedRune r then some r else none)

/-- Decimal rendering of the Unix timestamp. -/
def natStr (n : Nat) : Str := (Nat.repr n).data

/-- generateUniqueFilename from internal/handlers/report.go: timestamp,
underscore, sanitized base name, original extension. -/
def generateUniqueFilename (timestamp : Nat) (originalFilename : Str) : Str :=
  let ext := goExt originalFilename
  let nameWithoutExt := trimSuf ext originalFilename
  natStr timestamp ++ str "_" ++ sanitizeBaseName nameWithoutExt ++ ext

/-! Helper lemmas about the string utilities. -/

lemma isPrefixOf_self_append (l r : Str) : l.isPrefixOf (l ++ r) = true := by
  induction l with
  | nil => simp [List.isPrefixOf]
  | cons c cs ih =>
    show (c == c && cs.isPrefixOf (cs ++ r)) = true
    simp [ih]

lemma isSuffixOf_append_self (s suf : Str) : suf.isSuffixOf (s ++ suf) = true := by
  show suf.reverse.isPrefixOf (s ++ suf).reverse = true
  rw [List.reverse_append]
  exact isPrefixOf_self_append suf.reverse s.reverse

lemma trimPre_append (pre s : Str) : trimPre pre (pre ++ s) = s := by
  unfold trimPre
  rw [if_pos (isPrefixOf_self_append pre s)]
  exact List.drop_left pre s

lemma trimSuf_append (s suf : Str) : trimSuf suf (s ++ suf) = s := by
  unfold trimSuf
  rw [if_pos (isSuffixOf_append_self s suf)]
  have hl : (s ++ suf).length - suf.length = s.length := by
    rw [List.length_append]
    omega
  rw [hl]
  exact List.take_left s suf

lemma trimPre_no (pre s : Str) (h : pre.isPrefixOf s = false) : trimPre pre s = s := by
  unfold trimPre
  rw [h]
  rfl

lemma trimSuf_no (suf s : Str) (h : suf.isSuffixOf s = false) : trimSuf suf s = s := by
  unfold trimSuf
  rw [h]
  rfl

lemma map_id_of_mem {α : Type} (f : α → α) :
    ∀ l : List α, (∀ x ∈ l, f x = x) → l.map f = l := by
  intro l h
  induction l with
  | nil => rfl
  | cons x xs ih =>
    have hx := h x (List.mem_cons_self x xs)
    have hxs := ih (fun y hy => h y (List.mem_cons_of_mem x hy))
    simp [hx, hxs]

/-- Claim C9: for every file path and any two declared file types,
extractTextFromFile returns identical results; the declared-type argument
has no effect on the output (dispatch reads only the lower-cased path
extension). -/
theorem c9_filetype_noninterference (env : Env) (path t1 t2 : Str) :
    extractTextFromFile env path t1 = extractTextFromFile env path t2 := rfl

/-- Claim C10: generateUniqueFilename produces timestamp, underscore,
sanitized base name, original extension, and every character of the
sanitized base-name portion is an ASCII letter, digit, underscore or
hyphen (so in particular never a path separator). -/
theorem c10_unique_filename_sanitized (timestamp : Nat) (original : Str) :
    ∃ safe : Str,
      generateUniqueFilename timestamp original =
        natStr timestamp ++ str "_" ++ safe ++ goExt original ∧
      ∀ c ∈ safe, isAllowedRune c = true := by
  refine ⟨sanitizeBaseName (trimSuf (goExt original) original), rfl, ?_⟩
  intro c hc
  unfold sanitizeBaseName at hc
  rcases List.mem_filterMap.mp hc with ⟨a, _, ha⟩
  by_cases hall : isAllowedRune a = true
  · rw [if_pos hall] at ha
    cases ha
    exact hall
  · rw [if_neg hall] at ha
    cases ha

/-- Claim C8: normalizing a JSON payload wrapped in code-fence markers
yields exactly the same result as normalizing the unwrapped payload.  A
JSON payload never begins with a backtick and never ends with one, which
is all the proof needs: the two hypotheses state exactly that the payload
does not itself carry the fence markers. -/
theorem c8_fence_invariance (u : Str → Option AnalysisResult) (p : Str)
    (h1 : (str "```json").isPrefixOf p = false)
    (h2 : (str "```").isSuffixOf p = false) :
    parseAnalysisResponse u (str "```json" ++ p ++ str "```") =
      parseAnalysisResponse u p := by
  have hw : stripFences (str "```json" ++ p ++ str "```") = p := by
    have hassoc : str "```json" ++ p ++ str "```" =
        str "```json" ++ (p ++ str "```") := by
      rw [List.append_assoc]
    rw [stripFences, hassoc, trimPre_append, trimSuf_append]
  have hp : stripFences p = p := by
    rw [stripFences, trimPre_no _ _ h1, trimSuf_no _ _ h2]
  unfold parseAnalysisResponse cleanResponse
  rw [hw, hp]

/-- Witness for C8 at a concrete one-field JSON payload. -/
theorem c8_fence_invariance_witness :
    parseAnalysisResponse (fun _ => none)
        (str "```json" ++ str "\x7b\"risk_level\":\"low\"\x7d" ++ str "```") =
      parseAnalysisResponse (fun _ => none) (str "\x7b\"risk_level\":\"low\"\x7d") :=
  c8_fence_invariance (fun _ => none) (str "\x7b\"risk_level\":\"low\"\x7d")
    (by decide) (by decide)

lemma applyUpdates_cons (r : Report) (u : Str × Str × Nat) (l : List (Str × Str × Nat)) :
    applyUpdates r (u :: l) =
      applyUpdates (UpdateProcessingStatus r u.1 u.2.1 u.2.2) l := rfl

lemma processedAt_mono (l : List (Str × Str × Nat)) :
    ∀ r : Report, r.processedAt.isSome = true →
      (applyUpdates r l).processedAt.isSome = true := by
  induction l with
  | nil => intro r h; exact h
  | cons u rest ih =>
    intro r h
    rw [applyUpdates_cons]
    apply ih
    unfold UpdateProcessingStatus
    dsimp only
    split
    · rfl
    · exact h

/-- Claim C3: starting from a row whose processed-at column is unset,
after any sequence of UpdateProcessingStatus calls the column is set if
and only if some call in the sequence carried the completed status; in
particular a row that only ever transitions to failed keeps it unset. -/
theorem c3_processed_at_iff_completed (r : Report) (l : List (Str × Str × Nat))
    (h : r.processedAt = none) :
    (applyUpdates r l).processedAt.isSome = true ↔
      str "completed" ∈ l.map (fun u => u.1) := by
  induction l generalizing r with
  | nil =>
    simp [applyUpdates, h]
  | cons u rest ih =>
    rw [applyUpdates_cons]
    by_cases hc : u.1 = str "completed"
    · constructor
      · intro _
        exact List.mem_map.mpr ⟨u, List.mem_cons_self u rest, hc⟩
      · intro _
        apply processedAt_mono
        unfold UpdateProcessingStatus
        dsimp only
        rw [if_pos hc]
        rfl
    · have hupd : (UpdateProcessingStatus r u.1 u.2.1 u.2.2).processedAt = none := by
        unfold UpdateProcessingStatus
        dsimp only
        rw [if_neg hc]
        exact h
      rw [ih _ hupd]
      simp only [List.map_cons, List.mem_cons]
      constructor
      · intro hr
        exact Or.inr hr
      · intro hor
        rcases hor with heq | hr
        · exact absurd heq.symm hc
        · exact hr

/-- A concrete pending report row used by several witnesses. -/
def sampleReport : Report :=
  { id := 1
    userId := 7
    originalFilename := str "report one.txt"
    filePath := str "uploads/1700000000_report_one.txt"
    fileType := str "text/plain"
    fileSize := 64
    simplifiedSummary := []
    processingStatus := str "pending"
    uploadDate := 100
    processedAt := none
    createdAt := 100
    updatedAt := 100 }

/-- Witness for C3: a processing-then-failed run leaves processed-at unset
(the left side evaluates to false, and completed is indeed absent). -/
theorem c3_processed_at_iff_completed_witness :
    (applyUpdates sampleReport
        [(str "processing", [], 101), (str "failed", str "Processing failed: x", 102)]
      ).processedAt.isSome = true ↔
      str "completed" ∈
        ([(str "processing", ([] : Str), 101),
          (str "failed", str "Processing failed: x", 102)].map (fun u => u.1)) :=
  c3_processed_at_iff_completed sampleReport
    [(str "processing", [], 101), (str "failed", str "Processing failed: x", 102)] rfl

/-- Claim C1: normalization never returns an error, and whenever strict
JSON decoding of the cleaned text fails it returns the degraded analysis,
whose summary, simple summary and recommendations are non-empty and whose
risk level is the literal medium. -/
theorem c1_normalize_total_degraded (u : Str → Option AnalysisResult) (resp : Str) :
    isOkE (parseAnalysisResponse u resp) = true ∧
    (u (cleanResponse resp) = none →
      parseAnalysisResponse u resp =
        Except.ok (fallbackAnalysis (cleanResponse resp)) ∧
      0 < (fallbackAnalysis (cleanResponse resp)).summary.length ∧
      0 < (fallbackAnalysis (cleanResponse resp)).simpleSummary.length ∧
      0 < (fallbackAnalysis (cleanResponse resp)).recommendations.length ∧
      (fallbackAnalysis (cleanResponse resp)).riskLevel = str "medium") := by
  cases hca : u (cleanResponse resp) with
  | none =>
    have hp : parseAnalysisResponse u resp =
        Except.ok (fallbackAnalysis (cleanResponse resp)) := by
      simp [parseAnalysisResponse, hca]
    refine ⟨by rw [hp]; rfl, fun _ => ⟨hp, ?_, ?_, ?_, rfl⟩⟩
    · simp [fallbackAnalysis, str]
    · simp [fallbackAnalysis, str, List.length_append]
    · simp [fallbackAnalysis]
  | some a =>
    have hp : parseAnalysisResponse u resp =
        Except.ok (validateAndEnhanceAnalysis a) := by
      simp [parseAnalysisResponse, hca]
    refine ⟨by rw [hp]; rfl, fun hn => ?_⟩
    simp at hn

/-- Witness for C1 on a prose-only model response with a decoder that
rejects everything. -/
theorem c1_normalize_total_degraded_witness :
    isOkE (parseAnalysisResponse (fun _ => none)
        (str "the model wrote prose instead of json")) = true ∧
    parseAnalysisResponse (fun _ => none)
        (str "the model wrote prose instead of json") =
      Except.ok (fallbackAnalysis
        (cleanResponse (str "the model wrote prose instead of json"))) ∧
    0 < (fallbackAnalysis
        (cleanResponse (str "the model wrote prose instead of json"))).summary.length ∧
    0 < (fallbackAnalysis
        (cleanResponse (str "the model wrote prose instead of json"))).simpleSummary.length ∧
    0 < (fallbackAnalysis
        (cleanResponse (str "the model wrote prose instead of json"))).recommendations.length ∧
    (fallbackAnalysis
        (cleanResponse (str "the model wrote prose instead of json"))).riskLevel =
      str "medium" :=
  ⟨(c1_normalize_total_degraded (fun _ => none)
      (str "the model wrote prose instead of json")).1,
   (c1_normalize_total_degraded (fun _ => none)
      (str "the model wrote prose instead of json")).2 rfl⟩

/-- Claim C4: after the validation pass, every metric score sits in the
0 to 100 range; a negative incoming score becomes 0, a score above 100
becomes 100, an in-range score is untouched; and a metric whose status
was absent gets it derived from the clamped score by the fixed 80/50
thresholds, while a present status is preserved. -/
theorem c4_metric_clamp_and_status (a : AnalysisResult) (i : Nat)
    (m m2 : HealthMetric)
    (h1 : a.healthMetrics[i]? = some m)
    (h2 : (validateAndEnhanceAnalysis a).healthMetrics[i]? = some m2) :
    (0 ≤ m2.score ∧ m2.score ≤ 100) ∧
    (m.score < 0 → m2.score = 0) ∧
    (100 < m.score → m2.score = 100) ∧
    (0 ≤ m.score → m.score ≤ 100 → m2.score = m.score) ∧
    (m.status = [] →
      m2.status =
        (if 80 ≤ m2.score then str "normal"
         else if 50 ≤ m2.score then str "warning"
         else str "critical")) ∧
    (m.status ≠ [] → m2.status = m.status) := by
  have hmets : (validateAndEnhanceAnalysis a).healthMetrics =
      a.healthMetrics.map validateMetric := rfl
  rw [hmets, List.getElem?_map, h1] at h2
  simp at h2
  subst h2
  simp only [validateMetric]
  refine ⟨⟨?_, ?_⟩, ?_, ?_, ?_, ?_, ?_⟩
  · split
    · norm_num
    · split
      · norm_num
      · linarith [not_lt.mp (by assumption : ¬ _ < (0 : ℚ))]
  · split
    · norm_num
    · split
      · norm_num
      · linarith [not_lt.mp (by assumption : ¬ (100 : ℚ) < _)]
  · intro hneg
    rw [if_pos hneg]
  · intro hbig
    rw [if_neg (by linarith), if_pos hbig]
  · intro hlo hhi
    rw [if_neg (by linarith), if_neg (by linarith)]
  · intro hs
    rw [if_pos hs]
  · intro hs
    rw [if_neg hs]

/-- A metric as the model might hallucinate it: negative score, absent
status. -/
def cMetricNeg : HealthMetric :=
  { name := str "Hemoglobin"
    value := GoAny.jsonNum 9
    unit := str "g/dL"
    score := -5
    status := []
    rangeMin := 12
    rangeMax := 16
    description := str "Oxygen-carrying protein level" }

/-- The same metric after the validation pass: clamped to 0, status
derived as critical. -/
def cMetricNegOut : HealthMetric :=
  { cMetricNeg with score := 0, status := str "critical" }

/-- A parsed model output containing the hallucinated metric. -/
def cAnalysisNeg : AnalysisResult :=
  { summary := str "Anemia panel assessed."
    simpleSummary := str "Your hemoglobin level was assessed."
    healthMetrics := [cMetricNeg]
    keyFindings := []
    recommendations := [str "Discuss iron intake with your doctor"]
    riskLevel := str "high" }

/-- Witness for C4: the negative-score, absent-status metric comes out
with score 0 and status critical, inside the 0 to 100 range. -/
theorem c4_metric_clamp_and_status_witness :
    (0 ≤ cMetricNegOut.score ∧ cMetricNegOut.score ≤ 100) ∧
    cMetricNegOut.score = 0 ∧
    cMetricNegOut.status = str "critical" :=
  have h := c4_metric_clamp_and_status cAnalysisNeg 0 cMetricNeg cMetricNegOut rfl rfl
  ⟨h.1, h.2.1 (by norm_num [cMetricNeg]),
    (h.2.2.2.2.1 rfl).trans (by norm_num [cMetricNegOut, cMetricNeg, str])⟩

/-- A one-entry decoding table: the model of json.Unmarshal succeeding on
exactly one known payload. -/
def tableU (j : Str) (a : AnalysisResult) : Str → Option AnalysisResult :=
  fun s => if s = j then some a else none

/-- Claim C6, amended: on a successfully decoded output, normalization
replaces the risk level with medium exactly when the decoded risk level
is empty (missing from the JSON); any non-empty value, recognized or not,
is preserved as is. -/
theorem c6_risk_default_amended (u : Str → Option AnalysisResult) (resp : Str)
    (a : AnalysisResult) (h : u (cleanResponse resp) = some a) :
    parseAnalysisResponse u resp = Except.ok (validateAndEnhanceAnalysis a) ∧
    (validateAndEnhanceAnalysis a).riskLevel =
      (if a.riskLevel = [] then str "medium" else a.riskLevel) :=
  ⟨by simp [parseAnalysisResponse, h], rfl⟩

/-- A decoded output whose JSON had no risk_level key, so the Go zero
value (the empty string) is what the decoder produced. -/
def noRiskAnalysis : AnalysisResult :=
  { summary := str "Routine blood panel reviewed in detail."
    simpleSummary := str "Your blood test looks fine overall."
    healthMetrics := []
    keyFindings := []
    recommendations := [str "Keep a balanced diet"]
    riskLevel := [] }

/-- The raw JSON matching noRiskAnalysis (no risk_level key). -/
def noRiskJson : Str :=
  str "\x7b\"summary\":\"Routine blood panel reviewed in detail.\",\"simple_summary\":\"Your blood test looks fine overall.\",\"health_metrics\":[],\"key_findings\":[],\"recommendations\":[\"Keep a balanced diet\"]\x7d"

/-- Witness for the amended C6: the empty risk level is replaced by
medium. -/
theorem c6_risk_default_amended_witness :
    parseAnalysisResponse (tableU noRiskJson noRiskAnalysis) noRiskJson =
      Except.ok (validateAndEnhanceAnalysis noRiskAnalysis) ∧
    (validateAndEnhanceAnalysis noRiskAnalysis).riskLevel =
      (if noRiskAnalysis.riskLevel = [] then str "medium" else noRiskAnalysis.riskLevel) :=
  c6_risk_default_amended (tableU noRiskJson noRiskAnalysis) noRiskJson
    noRiskAnalysis rfl

/-- A decoded output carrying the unrecognized risk level unknown. -/
def unknownRiskAnalysis : AnalysisResult :=
  { summary := str "Lipid profile reviewed by the model."
    simpleSummary := str "Your cholesterol numbers were reviewed."
    healthMetrics := []
    keyFindings := []
    recommendations := [str "Stay hydrated"]
    riskLevel := str "unknown" }

/-- The raw JSON matching unknownRiskAnalysis. -/
def unknownRiskJson : Str :=
  str "\x7b\"summary\":\"Lipid profile reviewed by the model.\",\"simple_summary\":\"Your cholesterol numbers were reviewed.\",\"health_metrics\":[],\"key_findings\":[],\"recommendations\":[\"Stay hydrated\"],\"risk_level\":\"unknown\"\x7d"

/-- Counterexample to C6 as stated: a valid JSON output whose risk level
is the unrecognized value unknown passes through normalization with risk
level still unknown, not medium. -/
theorem c6_unknown_risk_counterexample :
    parseAnalysisResponse (tableU unknownRiskJson unknownRiskAnalysis)
        unknownRiskJson = Except.ok unknownRiskAnalysis ∧
    (unknownRiskAnalysis.riskLevel == str "medium") = false ∧
    (unknownRiskAnalysis.riskLevel == str "unknown") = true := by
  refine ⟨rfl, rfl, rfl⟩

/-- Claim C7, amended: a successfully decoded output with every metric
score already in the 0 to 100 range and with non-empty summary, simple
summary, risk level, recommendations and per-metric statuses is returned
unchanged by normalization. -/
theorem c7_roundtrip_amended (u : Str → Option AnalysisResult) (resp : Str)
    (a : AnalysisResult) (h : u (cleanResponse resp) = some a)
    (h1 : 0 < a.summary.length) (h2 : 0 < a.simpleSummary.length)
    (h3 : 0 < a.riskLevel.length) (h4 : 0 < a.recommendations.length)
    (h5 : ∀ m ∈ a.healthMetrics,
      0 ≤ m.score ∧ m.score ≤ 100 ∧ 0 < m.status.length) :
    parseAnalysisResponse u resp = Except.ok a := by
  have hv : validateAndEnhanceAnalysis a = a := by
    have hmap : a.healthMetrics.map validateMetric = a.healthMetrics := by
      apply map_id_of_mem
      intro m hm
      obtain ⟨hs0, hs100, hst⟩ := h5 m hm
      simp only [validateMetric]
      rw [if_neg (List.length_pos.mp hst), if_neg (not_lt.mpr hs0),
        if_neg (not_lt.mpr hs100)]
    unfold validateAndEnhanceAnalysis
    rw [if_neg (List.length_pos.mp h1), if_neg (List.length_pos.mp h2),
      if_neg (List.length_pos.mp h3), if_neg (List.length_pos.mp h4), hmap]
  simp [parseAnalysisResponse, h, hv]

/-- A fully well-formed metric as the model should return it. -/
def goodMetric : HealthMetric :=
  { name := str "Glucose"
    value := GoAny.jsonNum 90
    unit := str "mg/dL"
    score := 85
    status := str "normal"
    rangeMin := 70
    rangeMax := 99
    description := str "Blood sugar level" }

/-- A fully well-formed decoded output. -/
def goodAnalysis : AnalysisResult :=
  { summary := str "Fasting glucose within the optimal range."
    simpleSummary := str "Your sugar level looks good."
    healthMetrics := [goodMetric]
    keyFindings := [str "Glucose normal"]
    recommendations := [str "Keep exercising regularly"]
    riskLevel := str "low" }

/-- The raw JSON matching goodAnalysis. -/
def goodJson : Str :=
  str "\x7b\"summary\":\"Fasting glucose within the optimal range.\",\"simple_summary\":\"Your sugar level looks good.\",\"health_metrics\":[\x7b\"name\":\"Glucose\",\"value\":90,\"unit\":\"mg/dL\",\"score\":85,\"status\":\"normal\",\"range_min\":70,\"range_max\":99,\"description\":\"Blood sugar level\"\x7d],\"key_findings\":[\"Glucose normal\"],\"recommendations\":[\"Keep exercising regularly\"],\"risk_level\":\"low\"\x7d"

/-- Witness for the amended C7 at a fully well-formed concrete output. -/
theorem c7_roundtrip_amended_witness :
    parseAnalysisResponse (tableU goodJson goodAnalysis) goodJson =
      Except.ok goodAnalysis :=
  c7_roundtrip_amended (tableU goodJson goodAnalysis) goodJson goodAnalysis
    rfl (by decide) (by decide) (by decide) (by decide) (by decide)

/-- A decoded output that is valid JSON with no out-of-range score but an
empty recommendations list. -/
def noRecsAnalysis : AnalysisResult :=
  { summary := str "CBC values were analyzed."
    simpleSummary := str "Your blood counts were analyzed."
    healthMetrics := []
    keyFindings := []
    recommendations := []
    riskLevel := str "low" }

/-- The raw JSON matching noRecsAnalysis. -/
def noRecsJson : Str :=
  str "\x7b\"summary\":\"CBC values were analyzed.\",\"simple_summary\":\"Your blood counts were analyzed.\",\"health_metrics\":[],\"key_findings\":[],\"recommendations\":[],\"risk_level\":\"low\"\x7d"

/-- Counterexample to C7 as stated: a valid JSON output with every score
in range (there are none out of range) is not returned unchanged, because
the repair pass replaces its empty recommendations with three defaults. -/
theorem c7_unchanged_counterexample :
    parseAnalysisResponse (tableU noRecsJson noRecsAnalysis) noRecsJson =
      Except.ok (validateAndEnhanceAnalysis noRecsAnalysis) ∧
    (noRecsAnalysis.recommendations == ([] : List Str)) = true ∧
    ((validateAndEnhanceAnalysis noRecsAnalysis).recommendations ==
      ([] : List Str)) = false := by
  refine ⟨rfl, rfl, rfl⟩

lemma updatesOf_nil : updatesOf [] = [] := rfl

lemma updatesOf_cons_update (s n : Str) (tr : List Event) :
    updatesOf (Event.update s n :: tr) = (s, n) :: updatesOf tr := rfl

lemma updatesOf_append (l1 l2 : List Event) :
    updatesOf (l1 ++ l2) = updatesOf l1 ++ updatesOf l2 := by
  unfold updatesOf
  exact List.filterMap_append l1 l2 _

lemma updatesOf_analyzeReport (env : Env) (p t : Str) :
    updatesOf (analyzeReport env p t).1 = [] := by
  unfold analyzeReport
  cases hx : extractTextFromFile env p t with
  | error e => rfl
  | ok content => rfl

lemma analyzeReport_ok_marshal (env : Env) (p t s : Str)
    (h : (analyzeReport env p t).2 = Except.ok s) : ∃ an, s = env.marshal an := by
  cases hx : extractTextFromFile env p t with
  | error e =>
    have h2 : (analyzeReport env p t).2 =
        Except.error (str "failed to extract text from file: " ++ e) := by
      unfold analyzeReport
      rw [hx]
    rw [h2] at h
    simp at h
  | ok content =>
    cases hg : (generateAnalysis env content).2 with
    | error e =>
      have h2 : (analyzeReport env p t).2 =
          Except.error (str "failed to generate AI analysis: " ++ e) := by
        unfold analyzeReport
        rw [hx]
        dsimp only
        rw [hg]
      rw [h2] at h
      simp at h
    | ok an =>
      have h2 : (analyzeReport env p t).2 = Except.ok (env.marshal an) := by
        unfold analyzeReport
        rw [hx]
        dsimp only
        rw [hg]
      rw [h2] at h
      simp at h
      exact ⟨an, h.symm⟩

/-- Claim C2: every background task trace starts with the single
processing update as its very first action, and its store updates are
exactly that processing update followed by one terminal update, either
failed with a note or completed with a serialized analysis; nothing is
written after the terminal update. -/
theorem c2_pipeline_trace (env : Env) (ai : Bool) (r : Report) :
    (processReportAsync env ai r).head? =
      some (Event.update (str "processing") []) ∧
    ((∃ note, updatesOf (processReportAsync env ai r) =
        [(str "processing", ([] : Str)), (str "failed", note)]) ∨
     (∃ an, updatesOf (processReportAsync env ai r) =
        [(str "processing", ([] : Str)), (str "completed", env.marshal an)])) := by
  refine ⟨rfl, ?_⟩
  cases ai with
  | false =>
    exact Or.inl ⟨str "AI service not available - missing API key", rfl⟩
  | true =>
    cases hg : (analyzeReport env r.filePath r.fileType).2 with
    | error e =>
      refine Or.inl ⟨str "Processing failed: " ++ e, ?_⟩
      have h1 : processReportAsync env true r =
          Event.update (str "processing") [] ::
            ((analyzeReport env r.filePath r.fileType).1 ++
              [Event.update (str "failed") (str "Processing failed: " ++ e)]) := by
        simp [processReportAsync, hg]
      rw [h1, updatesOf_cons_update, updatesOf_append,
        updatesOf_analyzeReport]
      rfl
    | ok s =>
      obtain ⟨an, han⟩ :=
        analyzeReport_ok_marshal env r.filePath r.fileType s hg
      refine Or.inr ⟨an, ?_⟩
      have h1 : processReportAsync env true r =
          Event.update (str "processing") [] ::
            ((analyzeReport env r.filePath r.fileType).1 ++
              [Event.update (str "completed") s]) := by
        simp [processReportAsync, hg]
      rw [h1, updatesOf_cons_update, updatesOf_append,
        updatesOf_analyzeReport, han]
      rfl

/-- Claim C5, amended: a report whose stored path carries an extension
outside txt, pdf, docx and doc (lower-cased) fails extraction with the
unsupported-file-type error, and its pipeline trace is exactly the
processing update followed by the failed update, with no call to the
analysis client.  The doc and docx extensions are excluded because the
source deliberately returns placeholder text, not a failure, for them
(see the counterexample). -/
theorem c5_unsupported_ext_amended (env : Env) (r : Report)
    (h1 : toLowerStr (goExt r.filePath) ≠ str ".txt")
    (h2 : toLowerStr (goExt r.filePath) ≠ str ".pdf")
    (h3 : toLowerStr (goExt r.filePath) ≠ str ".docx")
    (h4 : toLowerStr (goExt r.filePath) ≠ str ".doc") :
    extractTextFromFile env r.filePath r.fileType =
      Except.error (str "unsupported file type: " ++ toLowerStr (goExt r.filePath)) ∧
    processReportAsync env true r =
      [Event.update (str "processing") [],
       Event.update (str "failed")
         (str "Processing failed: failed to extract text from file: unsupported file type: " ++
           toLowerStr (goExt r.filePath))] ∧
    (processReportAsync env true r).any isClientCallEv = false := by
  have hx : extractTextFromFile env r.filePath r.fileType =
      Except.error (str "unsupported file type: " ++ toLowerStr (goExt r.filePath)) := by
    simp only [extractTextFromFile]
    rw [if_neg h1, if_neg h2, if_neg (fun hor => hor.elim h3 h4)]
  have har : analyzeReport env r.filePath r.fileType =
      ([], Except.error (str "failed to extract text from file: " ++
        (str "unsupported file type: " ++ toLowerStr (goExt r.filePath)))) := by
    unfold analyzeReport
    rw [hx]
  have htr : processReportAsync env true r =
      [Event.update (str "processing") [],
       Event.update (str "failed")
         (str "Processing failed: failed to extract text from file: unsupported file type: " ++
           toLowerStr (goExt r.filePath))] := by
    simp only [processReportAsync, har, if_true]
    rfl
  exact ⟨hx, htr, by rw [htr]; rfl⟩

/-- An environment in which every external dependency is present but
inert; enough to drive the pipeline traces in the witnesses. -/
def sampleEnv : Env :=
  { readFile := fun _ => Except.error (str "open: no such file")
    pdfPages := fun _ => Except.error (str "pdf damaged")
    promptFile := none
    generate := fun _ => Except.error (str "transport: connection refused")
    unmarshal := fun _ => none
    marshal := fun _ => [] }

/-- A pending report whose stored file has an unsupported extension. -/
def pngReport : Report :=
  { sampleReport with
    originalFilename := str "scan.png"
    filePath := str "uploads/1700000000_scan.png"
    fileType := str "image/png" }

/-- Witness for the amended C5 at a png upload. -/
theorem c5_unsupported_ext_amended_witness :
    extractTextFromFile sampleEnv pngReport.filePath pngReport.fileType =
      Except.error (str "unsupported file type: " ++
        toLowerStr (goExt pngReport.filePath)) ∧
    processReportAsync sampleEnv true pngReport =
      [Event.update (str "processing") [],
       Event.update (str "failed")
         (str "Processing failed: failed to extract text from file: unsupported file type: " ++
           toLowerStr (goExt pngReport.filePath))] ∧
    (processReportAsync sampleEnv true pngReport).any isClientCallEv = false :=
  c5_unsupported_ext_amended sampleEnv pngReport
    (by decide) (by decide) (by decide) (by decide)

/-- A pending report whose stored file is a docx document. -/
def docxReport : Report :=
  { sampleReport with
    originalFilename := str "report.docx"
    filePath := str "uploads/1700000000_report.docx"
    fileType := str "application/msword" }

/-- Counterexample to C5 as stated: for a docx report, extraction does
not fail at all; it succeeds with placeholder text, and the pipeline
then does call the analysis client. -/
theorem c5_docx_counterexample :
    extractTextFromFile sampleEnv docxReport.filePath docxReport.fileType =
      Except.ok (str "DOCX text extraction not yet implemented. Please use TXT format for testing.") ∧
    (processReportAsync sampleEnv true docxReport).any isClientCallEv = true :=
  ⟨rfl, rfl⟩
